import Mathlib

/-!
Shallow embedding of the BloomGarden savings tracker (src/app/app.py).

The persistent state is a sqlite database with two tables:
  * `savings (id INTEGER PRIMARY KEY AUTOINCREMENT, amount INTEGER NOT NULL)`
  * `app_state (key TEXT PRIMARY KEY, value TEXT)` holding the single
    `goal_reached` flag.
The UI layer additionally keeps the in-memory field `last_action_id`.

We model the database plus that in-memory pointer as one record `AppState`;
each Python function that touches the database becomes a Lean function on
`AppState` (explicit state passing).  The sqlite AUTOINCREMENT id counter is
modelled by `nextId`; rows are kept in insertion order.
-/

namespace BloomGarden

/-- `SAVINGS_GOAL = 500` (app.py line 17). -/
def SAVINGS_GOAL : Int := 500

/-- A row of the `savings` table: auto-assigned id and signed amount. -/
structure Entry where
  id : Nat
  amount : Int
  deriving DecidableEq, Repr

/-- The persisted tables plus the UI's in-memory `last_action_id`. -/
structure AppState where
  savings : List Entry
  nextId : Nat
  goalReached : Bool
  lastActionId : Option Nat
  deriving DecidableEq, Repr

/-- Fresh database and fresh `BloomGardenApp`: no rows, AUTOINCREMENT starts
at 1, no `goal_reached` row, `last_action_id = None`. -/
def initState : AppState :=
  { savings := [], nextId := 1, goalReached := false, lastActionId := none }

/-- SQL `SUM(amount)` over the `savings` rows: `NULL` (`none`) on the empty
set, otherwise the sum of the amounts. -/
def sqlSumAmount : List Entry → Option Int
  | [] => none
  | e :: rest =>
      match sqlSumAmount rest with
      | none => some e.amount
      | some t => some (e.amount + t)

/-- `get_total_savings`: `SELECT COALESCE(SUM(amount), 0) FROM savings`. -/
def get_total_savings (s : AppState) : Int :=
  (sqlSumAmount s.savings).getD 0

/-- `add_savings(amount)`: `INSERT INTO savings (amount) VALUES (?)`; returns
`cur.lastrowid` together with the updated state. -/
def add_savings (s : AppState) (amount : Int) : Nat × AppState :=
  (s.nextId,
   { s with savings := s.savings ++ [⟨s.nextId, amount⟩], nextId := s.nextId + 1 })

/-- `delete_saving_row(row_id)`: `DELETE FROM savings WHERE id = ?`. -/
def delete_saving_row (s : AppState) (rowId : Nat) : AppState :=
  { s with savings := s.savings.filter (fun e => e.id ≠ rowId) }

/-- `is_goal_reached()`: the `goal_reached` row exists with value `"true"`. -/
def is_goal_reached (s : AppState) : Bool :=
  s.goalReached

/-- `set_goal_reached()`: `INSERT OR REPLACE` of `('goal_reached', 'true')`. -/
def set_goal_reached (s : AppState) : AppState :=
  { s with goalReached := true }

/-- The goal transition inside `refresh_ui` (app.py lines 396-402): if
`total >= SAVINGS_GOAL and not goal_already_reached` then `set_goal_reached()`
and `play_celebration()`.  The returned `Bool` records whether the
celebration was signalled.  All other work in `refresh_ui` is presentation
(progress-bar animation, GIF swapping, labels) and does not touch the model
state. -/
def refresh_ui (s : AppState) : AppState × Bool :=
  if SAVINGS_GOAL ≤ get_total_savings s ∧ is_goal_reached s = false then
    (set_goal_reached s, true)
  else
    (s, false)

/-- The typed failures of the service operations (§7 of the spec; in the
code each is a `show_warning` early return). -/
inductive AppError where
  | validationError
  | goalAlreadyReachedError
  | insufficientFundsError
  | nothingToUndoError
  deriving DecidableEq, Repr

/-- `handle_add_savings` (app.py lines 529-561), for an already-parsed
integer amount: reject `amount <= 0`; reject when
`get_total_savings() >= SAVINGS_GOAL`; otherwise insert the row, record its
id in `last_action_id`, and run `refresh_ui`. -/
def handle_add_savings (s : AppState) (amount : Int) :
    Except AppError (AppState × Bool) :=
  if amount ≤ 0 then
    .error .validationError
  else if SAVINGS_GOAL ≤ get_total_savings s then
    .error .goalAlreadyReachedError
  else
    let r := add_savings s amount
    .ok (refresh_ui { r.2 with lastActionId := some r.1 })

/-- `handle_subtract_savings` (app.py lines 565-599): reject `amount <= 0`;
reject `amount > current_total`; otherwise insert a row of `-amount`, record
its id in `last_action_id`, and run `refresh_ui`. -/
def handle_subtract_savings (s : AppState) (amount : Int) :
    Except AppError (AppState × Bool) :=
  if amount ≤ 0 then
    .error .validationError
  else if get_total_savings s < amount then
    .error .insufficientFundsError
  else
    let r := add_savings s (-amount)
    .ok (refresh_ui { r.2 with lastActionId := some r.1 })

/-- `handle_reset_savings` (app.py lines 602-645), confirmed branch:
`DELETE FROM savings` then `refresh_ui`.  `last_action_id` is not touched. -/
def handle_reset_savings (s : AppState) : AppState × Bool :=
  refresh_ui { s with savings := [] }

/-- `handle_undo` (app.py lines 647-654): error when `last_action_id is
None`; otherwise delete that row, clear `last_action_id`, `refresh_ui`. -/
def handle_undo (s : AppState) : Except AppError (AppState × Bool) :=
  match s.lastActionId with
  | none => .error .nothingToUndoError
  | some i => .ok (refresh_ui { delete_saving_row s i with lastActionId := none })

/-- The public operations reachable from the UI. -/
inductive Op where
  | add (amount : Int)
  | subtract (amount : Int)
  | undo
  | reset
  deriving DecidableEq, Repr

/-- One user action: a failing handler leaves the state unchanged and
signals nothing (the code returns after `show_warning` without writing). -/
def step (s : AppState) (op : Op) : AppState × Bool :=
  match op with
  | .add a =>
      match handle_add_savings s a with
      | .ok r => r
      | .error _ => (s, false)
  | .subtract a =>
      match handle_subtract_savings s a with
      | .ok r => r
      | .error _ => (s, false)
  | .undo =>
      match handle_undo s with
      | .ok r => r
      | .error _ => (s, false)
  | .reset => handle_reset_savings s

/-- Run a sequence of user actions. -/
def run (s : AppState) (ops : List Op) : AppState :=
  ops.foldl (fun t op => (step t op).1) s

/-- How many times the goal celebration is signalled along a run. -/
def countFires (s : AppState) : List Op → Nat
  | [] => 0
  | op :: rest =>
      (if (step s op).2 then 1 else 0) + countFires (step s op).1 rest

/-- `get_plant_stage` generalised over the module constant `SAVINGS_GOAL`
(app.py lines 102-115): `progress = total / goal if goal > 0 else 0`, then a
strict `<` threshold chain.  The Python division is exact float division;
over the integer inputs and the thresholds 0.25, 0.5, 0.75, 1.0 it agrees
with rational division, which we use. -/
def get_plant_stageG (total goal : Int) : String :=
  let progress : ℚ := if 0 < goal then (total : ℚ) / (goal : ℚ) else 0
  if progress < 0.25 then "seed"
  else if progress < 0.5 then "small"
  else if progress < 0.75 then "growing"
  else if progress < 1.0 then "almost"
  else "bloom"

/-- `get_plant_stage(total)` as in the source, at the fixed goal. -/
def get_plant_stage (total : Int) : String :=
  get_plant_stageG total SAVINGS_GOAL

/-! ### Specification-side definitions -/

/-- The spec's reading of `totalAmount()`: the sum of the amounts of the
entries currently in the ledger. -/
def totalList (l : List Entry) : Int :=
  (l.map Entry.amount).sum

/-- Inductive invariant of reachable states: the total is non-negative, all
stored ids are below the AUTOINCREMENT counter, and a tracked
`last_action_id` points at no row or at exactly one row which can be removed
without driving the total negative. -/
def Inv (s : AppState) : Prop :=
  0 ≤ get_total_savings s ∧
  (∀ e ∈ s.savings, e.id < s.nextId) ∧
  (∀ i, s.lastActionId = some i →
    s.savings.filter (fun e => e.id = i) = [] ∨
    ∃ e, s.savings.filter (fun e => e.id = i) = [e] ∧
         0 ≤ get_total_savings s - e.amount)

/-! ### Helper lemmas -/

lemma getD_sqlSumAmount (l : List Entry) :
    (sqlSumAmount l).getD 0 = totalList l := by
  induction l with
  | nil => rfl
  | cons e rest ih =>
      simp only [sqlSumAmount]
      cases h : sqlSumAmount rest with
      | none =>
          rw [h] at ih
          simp only [Option.getD_none] at ih
          simp only [Option.getD_some, totalList, List.map_cons, List.sum_cons,
            totalList] at ih ⊢
          omega
      | some t =>
          rw [h] at ih
          simp only [Option.getD_some] at ih
          simp only [Option.getD_some, totalList, List.map_cons, List.sum_cons,
            totalList] at ih ⊢
          omega

lemma get_total_savings_eq (s : AppState) :
    get_total_savings s = totalList s.savings := by
  rw [get_total_savings, getD_sqlSumAmount]

lemma totalList_append (l₁ l₂ : List Entry) :
    totalList (l₁ ++ l₂) = totalList l₁ + totalList l₂ := by
  simp [totalList]

lemma totalList_filter_split (l : List Entry) (i : Nat) :
    totalList l =
      totalList (l.filter (fun e => e.id = i)) +
      totalList (l.filter (fun e => e.id ≠ i)) := by
  induction l with
  | nil => rfl
  | cons e rest ih =>
      by_cases h : e.id = i <;>
        simp [totalList, List.filter_cons, h, totalList] at ih ⊢ <;> omega

lemma filter_ne_eq_self {l : List Entry} {i : Nat}
    (h : ∀ e ∈ l, e.id ≠ i) :
    l.filter (fun e => e.id ≠ i) = l := by
  induction l with
  | nil => rfl
  | cons e rest ih =>
      have he : e.id ≠ i := h e (List.mem_cons_self e rest)
      have ihr := ih (fun f hf => h f (List.mem_cons_of_mem e hf))
      rw [List.filter_cons, if_pos (by simpa using he), ihr]

lemma filter_of_none {l : List Entry} {i : Nat}
    (h : l.filter (fun e => e.id = i) = []) :
    ∀ e ∈ l, e.id ≠ i := by
  induction l with
  | nil => intro e he; cases he
  | cons e rest ih =>
      intro f hf
      by_cases he : e.id = i
      · simp [List.filter_cons, he] at h
      · rcases List.mem_cons.1 hf with rfl | hf'
        · exact he
        · exact ih (by simpa [List.filter_cons, he] using h) f hf'

lemma filter_append_new (l : List Entry) (n : Nat) (a : Int)
    (h : ∀ e ∈ l, e.id < n) :
    (l ++ [Entry.mk n a]).filter (fun e => e.id = n) = [Entry.mk n a] ∧
    (l ++ [Entry.mk n a]).filter (fun e => e.id ≠ n) = l := by
  induction l with
  | nil =>
      constructor
      · rw [List.nil_append, List.filter_cons, if_pos (by simp)]
        rfl
      · rw [List.nil_append, List.filter_cons, if_neg (by simp)]
        rfl
  | cons e rest ih =>
      have he : e.id ≠ n := Nat.ne_of_lt (h e (List.mem_cons_self e rest))
      have ihr := ih (fun f hf => h f (List.mem_cons_of_mem e hf))
      constructor
      · rw [List.cons_append, List.filter_cons, if_neg (by simpa using he), ihr.1]
      · rw [List.cons_append, List.filter_cons, if_pos (by simpa using he), ihr.2]

/-! ### Facts about `refresh_ui` -/

lemma refresh_ui_fst_savings (s : AppState) :
    (refresh_ui s).1.savings = s.savings := by
  rw [refresh_ui]; split <;> rfl

lemma refresh_ui_fst_nextId (s : AppState) :
    (refresh_ui s).1.nextId = s.nextId := by
  rw [refresh_ui]; split <;> rfl

lemma refresh_ui_fst_lastActionId (s : AppState) :
    (refresh_ui s).1.lastActionId = s.lastActionId := by
  rw [refresh_ui]; split <;> rfl

lemma refresh_ui_total (s : AppState) :
    get_total_savings (refresh_ui s).1 = get_total_savings s := by
  rw [get_total_savings_eq, get_total_savings_eq, refresh_ui_fst_savings]

lemma refresh_ui_fired_iff (s : AppState) :
    (refresh_ui s).2 = true ↔
      SAVINGS_GOAL ≤ get_total_savings s ∧ s.goalReached = false := by
  rw [refresh_ui]
  split <;> rename_i h <;> simp [is_goal_reached] at h ⊢ <;> tauto

lemma refresh_ui_flag_mono (s : AppState) (h : s.goalReached = true) :
    (refresh_ui s).1.goalReached = true ∧ (refresh_ui s).2 = false := by
  rw [refresh_ui]
  split <;> rename_i hc
  · simp [is_goal_reached, h] at hc
  · exact ⟨h, rfl⟩

lemma refresh_ui_fired_flag (s : AppState) (h : (refresh_ui s).2 = true) :
    (refresh_ui s).1.goalReached = true := by
  by_cases hc : SAVINGS_GOAL ≤ get_total_savings s ∧ is_goal_reached s = false
  · simp [refresh_ui, hc, set_goal_reached]
  · simp [refresh_ui, hc] at h

/-! ### Success and failure shapes of the handlers -/

lemma handle_add_eq_ok {s : AppState} {a : Int}
    (h1 : 0 < a) (h2 : get_total_savings s < SAVINGS_GOAL) :
    handle_add_savings s a =
      .ok (refresh_ui ⟨s.savings ++ [Entry.mk s.nextId a], s.nextId + 1,
        s.goalReached, some s.nextId⟩) := by
  simp only [handle_add_savings, add_savings]
  rw [if_neg (by omega), if_neg (by omega)]

lemma handle_subtract_eq_ok {s : AppState} {a : Int}
    (h1 : 0 < a) (h2 : a ≤ get_total_savings s) :
    handle_subtract_savings s a =
      .ok (refresh_ui ⟨s.savings ++ [Entry.mk s.nextId (-a)], s.nextId + 1,
        s.goalReached, some s.nextId⟩) := by
  simp only [handle_subtract_savings, add_savings]
  rw [if_neg (by omega), if_neg (by omega)]

lemma handle_undo_eq_ok {s : AppState} {i : Nat} (hi : s.lastActionId = some i) :
    handle_undo s =
      .ok (refresh_ui ⟨s.savings.filter (fun e => e.id ≠ i), s.nextId,
        s.goalReached, none⟩) := by
  simp only [handle_undo, hi, delete_saving_row]

lemma handle_reset_eq (s : AppState) :
    handle_reset_savings s =
      refresh_ui ⟨[], s.nextId, s.goalReached, s.lastActionId⟩ := rfl

lemma get_total_insert (s : AppState) (n : Nat) (b : Int) :
    get_total_savings ⟨s.savings ++ [Entry.mk n b], s.nextId + 1,
        s.goalReached, some s.nextId⟩ = get_total_savings s + b := by
  rw [get_total_savings_eq, get_total_savings_eq]
  show totalList (s.savings ++ [Entry.mk n b]) = _
  rw [totalList_append]
  simp [totalList]

/-! ### The inductive invariant is preserved -/

lemma Inv_refresh (s : AppState) (h : Inv s) : Inv (refresh_ui s).1 := by
  obtain ⟨h1, h2, h3⟩ := h
  refine ⟨?_, ?_, ?_⟩
  · rwa [refresh_ui_total]
  · rw [refresh_ui_fst_savings, refresh_ui_fst_nextId]; exact h2
  · intro i hi
    rw [refresh_ui_fst_lastActionId] at hi
    rw [refresh_ui_fst_savings, refresh_ui_total]
    exact h3 i hi

lemma Inv_insert (s : AppState) (b : Int) (hInv : Inv s)
    (hb : 0 ≤ get_total_savings s + b) :
    Inv ⟨s.savings ++ [Entry.mk s.nextId b], s.nextId + 1,
      s.goalReached, some s.nextId⟩ := by
  obtain ⟨h1, h2, h3⟩ := hInv
  refine ⟨?_, ?_, ?_⟩
  · rw [get_total_insert]; exact hb
  · intro e he
    rcases List.mem_append.1 he with h' | h'
    · exact Nat.lt_succ_of_lt (h2 e h')
    · simp only [List.mem_singleton] at h'
      subst h'
      exact Nat.lt_succ_self _
  · intro i hi
    simp only [Option.some.injEq] at hi
    subst hi
    right
    refine ⟨Entry.mk s.nextId b, (filter_append_new s.savings s.nextId b h2).1, ?_⟩
    rw [get_total_insert]
    simpa using h1

lemma Inv_undo_some {s : AppState} {i : Nat} (hInv : Inv s)
    (hi : s.lastActionId = some i) :
    Inv ⟨s.savings.filter (fun e => e.id ≠ i), s.nextId,
      s.goalReached, none⟩ := by
  obtain ⟨h1, h2, h3⟩ := hInv
  have hsplit := totalList_filter_split s.savings i
  have htot : get_total_savings ⟨s.savings.filter (fun e => e.id ≠ i), s.nextId,
      s.goalReached, none⟩ = totalList (s.savings.filter (fun e => e.id ≠ i)) :=
    get_total_savings_eq _
  rw [get_total_savings_eq] at h1
  refine ⟨?_, ?_, ?_⟩
  · rw [htot]
    rcases h3 i hi with hnil | ⟨e, hfe, he⟩
    · rw [filter_ne_eq_self (filter_of_none hnil)]
      exact h1
    · rw [get_total_savings_eq] at he
      rw [hfe] at hsplit
      simp only [totalList, List.map_cons, List.map_nil, List.sum_cons,
        List.sum_nil] at hsplit
      simp only [totalList] at *
      omega
  · intro e he
    exact h2 e (List.mem_filter.1 he).1
  · intro j hj
    cases hj

lemma Inv_reset (s : AppState) :
    Inv ⟨[], s.nextId, s.goalReached, s.lastActionId⟩ := by
  refine ⟨?_, ?_, ?_⟩
  · rw [get_total_savings_eq]
    exact le_refl 0
  · intro e he
    cases he
  · intro i _
    left
    rfl

lemma Inv_step (s : AppState) (op : Op) (h : Inv s) : Inv (step s op).1 := by
  have h0 := h.1
  cases op with
  | add a =>
      simp only [step]
      cases hr : handle_add_savings s a with
      | error e => exact h
      | ok r =>
          by_cases h1 : a ≤ 0
          · rw [handle_add_savings, if_pos h1] at hr
            cases hr
          · by_cases h2 : SAVINGS_GOAL ≤ get_total_savings s
            · rw [handle_add_savings, if_neg h1, if_pos h2] at hr
              cases hr
            · rw [handle_add_eq_ok (by omega) (by omega)] at hr
              injection hr with hr
              subst hr
              exact Inv_refresh _ (Inv_insert s a h (by omega))
  | subtract a =>
      simp only [step]
      cases hr : handle_subtract_savings s a with
      | error e => exact h
      | ok r =>
          by_cases h1 : a ≤ 0
          · rw [handle_subtract_savings, if_pos h1] at hr
            cases hr
          · by_cases h2 : get_total_savings s < a
            · rw [handle_subtract_savings, if_neg h1, if_pos h2] at hr
              cases hr
            · rw [handle_subtract_eq_ok (by omega) (by omega)] at hr
              injection hr with hr
              subst hr
              exact Inv_refresh _ (Inv_insert s (-a) h (by omega))
  | undo =>
      simp only [step]
      cases hr : handle_undo s with
      | error e => exact h
      | ok r =>
          cases hi : s.lastActionId with
          | none =>
              rw [handle_undo, hi] at hr
              cases hr
          | some i =>
              rw [handle_undo_eq_ok hi] at hr
              injection hr with hr
              subst hr
              exact Inv_refresh _ (Inv_undo_some h hi)
  | reset =>
      simp only [step, handle_reset_eq]
      exact Inv_refresh _ (Inv_reset s)

lemma Inv_init : Inv initState := by
  refine ⟨?_, ?_, ?_⟩
  · rw [get_total_savings_eq]
    exact le_refl 0
  · intro e he
    cases he
  · intro i hi
    cases hi

lemma Inv_run (s : AppState) (ops : List Op) (h : Inv s) : Inv (run s ops) := by
  induction ops generalizing s with
  | nil => exact h
  | cons op rest ih => exact ih _ (Inv_step s op h)

/-! ### Goal-flag dynamics -/

lemma step_shape (s : AppState) (op : Op) :
    (∃ mid : AppState, mid.goalReached = s.goalReached ∧ step s op = refresh_ui mid) ∨
    step s op = (s, false) := by
  cases op with
  | add a =>
      by_cases h1 : a ≤ 0
      · right
        simp only [step, handle_add_savings, if_pos h1]
      · by_cases h2 : SAVINGS_GOAL ≤ get_total_savings s
        · right
          simp only [step, handle_add_savings, if_neg h1, if_pos h2]
        · left
          refine ⟨⟨s.savings ++ [Entry.mk s.nextId a], s.nextId + 1,
            s.goalReached, some s.nextId⟩, rfl, ?_⟩
          simp only [step]
          rw [handle_add_eq_ok (show 0 < a by omega)
            (show get_total_savings s < SAVINGS_GOAL by omega)]
  | subtract a =>
      by_cases h1 : a ≤ 0
      · right
        simp only [step, handle_subtract_savings, if_pos h1]
      · by_cases h2 : get_total_savings s < a
        · right
          simp only [step, handle_subtract_savings, if_neg h1, if_pos h2]
        · left
          refine ⟨⟨s.savings ++ [Entry.mk s.nextId (-a)], s.nextId + 1,
            s.goalReached, some s.nextId⟩, rfl, ?_⟩
          simp only [step]
          rw [handle_subtract_eq_ok (show 0 < a by omega)
            (show a ≤ get_total_savings s by omega)]
  | undo =>
      cases hi : s.lastActionId with
      | none =>
          right
          simp only [step, handle_undo, hi]
      | some i =>
          left
          refine ⟨⟨s.savings.filter (fun e => e.id ≠ i), s.nextId,
            s.goalReached, none⟩, rfl, ?_⟩
          simp only [step, handle_undo_eq_ok hi]
  | reset =>
      left
      exact ⟨⟨[], s.nextId, s.goalReached, s.lastActionId⟩, rfl, rfl⟩

lemma step_flag_mono {s : AppState} (op : Op) (h : s.goalReached = true) :
    (step s op).1.goalReached = true ∧ (step s op).2 = false := by
  rcases step_shape s op with ⟨mid, hm, hs⟩ | hs
  · rw [hs]
    exact refresh_ui_flag_mono mid (hm.trans h)
  · rw [hs]
    exact ⟨h, rfl⟩

lemma step_fired_flag {s : AppState} (op : Op) (h : (step s op).2 = true) :
    (step s op).1.goalReached = true := by
  rcases step_shape s op with ⟨mid, hm, hs⟩ | hs
  · rw [hs] at h ⊢
    exact refresh_ui_fired_flag mid h
  · rw [hs] at h
    cases h

lemma countFires_zero_of_flag (s : AppState) (ops : List Op)
    (h : s.goalReached = true) : countFires s ops = 0 := by
  induction ops generalizing s with
  | nil => rfl
  | cons op rest ih =>
      obtain ⟨h1, h2⟩ := step_flag_mono op h
      simp only [countFires, h2, if_false, Bool.false_eq_true, Nat.zero_add]
      exact ih _ h1

lemma countFires_le_one (s : AppState) (ops : List Op) :
    countFires s ops ≤ 1 := by
  induction ops generalizing s with
  | nil => exact Nat.zero_le 1
  | cons op rest ih =>
      simp only [countFires]
      by_cases hf : (step s op).2 = true
      · rw [countFires_zero_of_flag _ _ (step_fired_flag op hf), hf]
        simp
      · have hf' : (step s op).2 = false := by
          simpa using hf
        rw [hf']
        simpa using ih (step s op).1

/-! ### Stage thresholds -/

lemma div500_lt (total : Int) (c : ℚ) (k : Int) (hk : c * 500 = (k : ℚ)) :
    ((total : ℚ) / 500 < c) ↔ total < k := by
  rw [div_lt_iff₀ (by norm_num : (0:ℚ) < 500), hk]
  exact_mod_cast Iff.rfl

lemma stage500 (total : Int) :
    get_plant_stageG total 500 =
      if total < 125 then "seed"
      else if total < 250 then "small"
      else if total < 375 then "growing"
      else if total < 500 then "almost"
      else "bloom" := by
  simp only [get_plant_stageG]
  rw [if_pos (by norm_num : (0:Int) < 500)]
  rw [show ((500:Int):ℚ) = 500 from by norm_num]
  simp only [div500_lt total 0.25 125 (by norm_num),
      div500_lt total 0.5 250 (by norm_num),
      div500_lt total 0.75 375 (by norm_num),
      div500_lt total 1.0 500 (by norm_num)]

lemma stage_nonpos (total goal : Int) (h : goal ≤ 0) :
    get_plant_stageG total goal = "seed" := by
  have h0 : (if 0 < goal then (total:ℚ)/(goal:ℚ) else 0) = 0 := if_neg (by omega)
  simp only [get_plant_stageG, h0]
  norm_num

lemma get_plant_stage_eq (total : Int) :
    get_plant_stage total =
      if total < 125 then "seed"
      else if total < 250 then "small"
      else if total < 375 then "growing"
      else if total < 500 then "almost"
      else "bloom" :=
  stage500 total

/-! ### Remaining helpers -/

lemma handle_undo_none {s : AppState} (h : s.lastActionId = none) :
    handle_undo s = .error .nothingToUndoError := by
  simp only [handle_undo, h]

lemma refresh_ui_empty (nid : Nat) (flag : Bool) (last : Option Nat) :
    refresh_ui ⟨[], nid, flag, last⟩ = (⟨[], nid, flag, last⟩, false) := by
  rw [refresh_ui, if_neg]
  intro hc
  have h1 := hc.1
  rw [get_total_savings_eq] at h1
  norm_num [totalList, SAVINGS_GOAL] at h1

lemma reset_state_eq (s : AppState) :
    handle_reset_savings s =
      (⟨[], s.nextId, s.goalReached, s.lastActionId⟩, false) := by
  rw [handle_reset_eq, refresh_ui_empty]

/-! ### Claim theorems -/

/-- C1: after every sequence of user operations starting from the empty
store, `get_total_savings` equals the sum of the amounts of the entries
currently in the ledger, and it is 0 when the ledger is empty. -/
theorem total_eq_ledger_sum (ops : List Op) :
    get_total_savings (run initState ops) = totalList (run initState ops).savings ∧
    ((run initState ops).savings = [] →
      get_total_savings (run initState ops) = 0) := by
  refine ⟨get_total_savings_eq _, fun h => ?_⟩
  rw [get_total_savings_eq, h]
  rfl

theorem total_eq_ledger_sum_witness :
    get_total_savings (run initState []) =
      totalList (run initState []).savings ∧
    get_total_savings (run initState []) = 0 :=
  ⟨(total_eq_ledger_sum []).1, (total_eq_ledger_sum []).2 rfl⟩

/-- C2: `get_plant_stageG` selects the stage from `progress = total / goal`
with strict upper bounds (so exactly a quarter of the goal is already
"small"); a non-positive goal is treated as progress 0; at goal 500 the
sample totals 0, 125, 250, 375, 500, 600 give seed, small, growing, almost,
bloom, bloom. -/
theorem plant_stage_thresholds :
    (∀ total goal : Int, goal ≤ 0 → get_plant_stageG total goal = "seed") ∧
    (∀ total : Int,
      ((total:ℚ) / 500 < 0.25 → get_plant_stage total = "seed") ∧
      (0.25 ≤ (total:ℚ) / 500 → (total:ℚ) / 500 < 0.5 →
        get_plant_stage total = "small") ∧
      (0.5 ≤ (total:ℚ) / 500 → (total:ℚ) / 500 < 0.75 →
        get_plant_stage total = "growing") ∧
      (0.75 ≤ (total:ℚ) / 500 → (total:ℚ) / 500 < 1 →
        get_plant_stage total = "almost") ∧
      (1 ≤ (total:ℚ) / 500 → get_plant_stage total = "bloom")) ∧
    get_plant_stage 0 = "seed" ∧ get_plant_stage 125 = "small" ∧
    get_plant_stage 250 = "growing" ∧ get_plant_stage 375 = "almost" ∧
    get_plant_stage 500 = "bloom" ∧ get_plant_stage 600 = "bloom" := by
  have l1 := fun total => div500_lt total 0.25 125 (by norm_num)
  have l2 := fun total => div500_lt total 0.5 250 (by norm_num)
  have l3 := fun total => div500_lt total 0.75 375 (by norm_num)
  have l4 := fun total => div500_lt total 1 500 (by norm_num)
  refine ⟨stage_nonpos, fun total => ⟨?_, ?_, ?_, ?_, ?_⟩, ?_, ?_, ?_, ?_, ?_, ?_⟩
  · intro h
    rw [get_plant_stage_eq, if_pos ((l1 total).1 h)]
  · intro h1 h2
    have n1 : ¬ total < 125 := fun hc => absurd ((l1 total).2 hc) (not_lt.2 h1)
    rw [get_plant_stage_eq, if_neg n1, if_pos ((l2 total).1 h2)]
  · intro h1 h2
    have n1 : ¬ total < 125 := fun hc =>
      absurd ((l1 total).2 hc) (not_lt.2 (le_trans (by norm_num) h1))
    have n2 : ¬ total < 250 := fun hc => absurd ((l2 total).2 hc) (not_lt.2 h1)
    rw [get_plant_stage_eq, if_neg n1, if_neg n2, if_pos ((l3 total).1 h2)]
  · intro h1 h2
    have n1 : ¬ total < 125 := fun hc =>
      absurd ((l1 total).2 hc) (not_lt.2 (le_trans (by norm_num) h1))
    have n2 : ¬ total < 250 := fun hc =>
      absurd ((l2 total).2 hc) (not_lt.2 (le_trans (by norm_num) h1))
    have n3 : ¬ total < 375 := fun hc => absurd ((l3 total).2 hc) (not_lt.2 h1)
    rw [get_plant_stage_eq, if_neg n1, if_neg n2, if_neg n3,
      if_pos ((l4 total).1 h2)]
  · intro h1
    have n1 : ¬ total < 125 := fun hc =>
      absurd ((l1 total).2 hc) (not_lt.2 (le_trans (by norm_num) h1))
    have n2 : ¬ total < 250 := fun hc =>
      absurd ((l2 total).2 hc) (not_lt.2 (le_trans (by norm_num) h1))
    have n3 : ¬ total < 375 := fun hc =>
      absurd ((l3 total).2 hc) (not_lt.2 (le_trans (by norm_num) h1))
    have n4 : ¬ total < 500 := fun hc => absurd ((l4 total).2 hc) (not_lt.2 h1)
    rw [get_plant_stage_eq, if_neg n1, if_neg n2, if_neg n3, if_neg n4]
  · rw [get_plant_stage_eq]; norm_num
  · rw [get_plant_stage_eq]; norm_num
  · rw [get_plant_stage_eq]; norm_num
  · rw [get_plant_stage_eq]; norm_num
  · rw [get_plant_stage_eq]; norm_num
  · rw [get_plant_stage_eq]; norm_num

theorem plant_stage_thresholds_witness :
    get_plant_stageG 600 (-1) = "seed" ∧ get_plant_stage 130 = "small" :=
  ⟨plant_stage_thresholds.1 600 (-1) (by norm_num),
   (plant_stage_thresholds.2.1 130).2.1 (by norm_num) (by norm_num)⟩

/-- C7: `handle_reset_savings` empties the ledger, so the total afterwards
is 0, and it leaves the goal-reached flag exactly as it was. -/
theorem reset_clears_ledger_keeps_flag (s : AppState) :
    (handle_reset_savings s).1.savings = [] ∧
    get_total_savings (handle_reset_savings s).1 = 0 ∧
    (handle_reset_savings s).1.goalReached = s.goalReached := by
  rw [reset_state_eq]
  refine ⟨rfl, ?_, rfl⟩
  rw [get_total_savings_eq]
  rfl

/-- C8: in every state reachable from the empty store by the public
operations, the total is never negative. -/
theorem total_never_negative (ops : List Op) :
    0 ≤ get_total_savings (run initState ops) :=
  (Inv_run initState ops Inv_init).1

/-- C9: `set_goal_reached` is idempotent, `is_goal_reached` is true after
any call to it, and it is false in the initial state. -/
theorem mark_goal_reached_idempotent :
    (∀ s : AppState, set_goal_reached (set_goal_reached s) = set_goal_reached s) ∧
    (∀ s : AppState, is_goal_reached (set_goal_reached s) = true) ∧
    is_goal_reached initState = false :=
  ⟨fun _ => rfl, fun _ => rfl, rfl⟩

/-- C3: `handle_subtract_savings` fails with `validationError` on a
non-positive amount, fails with `insufficientFundsError` when the amount
exceeds the current total — in both cases leaving the state untouched — and
otherwise appends a single entry of `-amount`, the new total being the old
total minus the amount. -/
theorem subtract_savings_spec (s : AppState) (a : Int) :
    (a ≤ 0 → handle_subtract_savings s a = .error .validationError ∧
      step s (.subtract a) = (s, false)) ∧
    (0 < a → get_total_savings s < a →
      handle_subtract_savings s a = .error .insufficientFundsError ∧
      step s (.subtract a) = (s, false)) ∧
    (0 < a → a ≤ get_total_savings s →
      ∃ s' f, handle_subtract_savings s a = .ok (s', f) ∧
        s'.savings = s.savings ++ [Entry.mk s.nextId (-a)] ∧
        get_total_savings s' = get_total_savings s - a) := by
  refine ⟨fun h => ?_, fun h1 h2 => ?_, fun h1 h2 => ?_⟩
  · have he : handle_subtract_savings s a = .error .validationError := by
      rw [handle_subtract_savings, if_pos h]
    exact ⟨he, by simp only [step, he]⟩
  · have he : handle_subtract_savings s a = .error .insufficientFundsError := by
      rw [handle_subtract_savings, if_neg (by omega), if_pos h2]
    exact ⟨he, by simp only [step, he]⟩
  · refine ⟨(refresh_ui ⟨s.savings ++ [Entry.mk s.nextId (-a)], s.nextId + 1,
        s.goalReached, some s.nextId⟩).1,
      (refresh_ui ⟨s.savings ++ [Entry.mk s.nextId (-a)], s.nextId + 1,
        s.goalReached, some s.nextId⟩).2, ?_, ?_, ?_⟩
    · rw [handle_subtract_eq_ok h1 h2]
    · rw [refresh_ui_fst_savings]
    · rw [refresh_ui_total, get_total_insert]
      ring

theorem subtract_savings_spec_witness :
    handle_subtract_savings ⟨[Entry.mk 1 100], 2, false, none⟩ 0 =
      .error .validationError ∧
    handle_subtract_savings ⟨[Entry.mk 1 100], 2, false, none⟩ 200 =
      .error .insufficientFundsError ∧
    (∃ s' f, handle_subtract_savings ⟨[Entry.mk 1 100], 2, false, none⟩ 50 =
        .ok (s', f) ∧
      s'.savings = [Entry.mk 1 100] ++ [Entry.mk 2 (-50)] ∧
      get_total_savings s' =
        get_total_savings ⟨[Entry.mk 1 100], 2, false, none⟩ - 50) :=
  ⟨((subtract_savings_spec _ 0).1 (by norm_num)).1,
   ((subtract_savings_spec _ 200).2.1 (by norm_num) (by decide)).1,
   (subtract_savings_spec _ 50).2.2 (by norm_num) (by decide)⟩

/-- C4: `handle_add_savings` fails with `validationError` on a non-positive
amount, fails with `goalAlreadyReachedError` when the current total already
meets the goal — in both cases leaving the state untouched — and otherwise
appends one entry of the amount, records its id as the last action, and the
new total is the old total plus the amount. -/
theorem add_savings_spec (s : AppState) (a : Int) :
    (a ≤ 0 → handle_add_savings s a = .error .validationError ∧
      step s (.add a) = (s, false)) ∧
    (0 < a → SAVINGS_GOAL ≤ get_total_savings s →
      handle_add_savings s a = .error .goalAlreadyReachedError ∧
      step s (.add a) = (s, false)) ∧
    (0 < a → get_total_savings s < SAVINGS_GOAL →
      ∃ s' f, handle_add_savings s a = .ok (s', f) ∧
        s'.savings = s.savings ++ [Entry.mk s.nextId a] ∧
        s'.lastActionId = some s.nextId ∧
        get_total_savings s' = get_total_savings s + a) := by
  refine ⟨fun h => ?_, fun h1 h2 => ?_, fun h1 h2 => ?_⟩
  · have he : handle_add_savings s a = .error .validationError := by
      rw [handle_add_savings, if_pos h]
    exact ⟨he, by simp only [step, he]⟩
  · have he : handle_add_savings s a = .error .goalAlreadyReachedError := by
      rw [handle_add_savings, if_neg (by omega), if_pos h2]
    exact ⟨he, by simp only [step, he]⟩
  · refine ⟨(refresh_ui ⟨s.savings ++ [Entry.mk s.nextId a], s.nextId + 1,
        s.goalReached, some s.nextId⟩).1,
      (refresh_ui ⟨s.savings ++ [Entry.mk s.nextId a], s.nextId + 1,
        s.goalReached, some s.nextId⟩).2, ?_, ?_, ?_, ?_⟩
    · rw [handle_add_eq_ok h1 h2]
    · rw [refresh_ui_fst_savings]
    · rw [refresh_ui_fst_lastActionId]
    · rw [refresh_ui_total, get_total_insert]

theorem add_savings_spec_witness :
    handle_add_savings initState 0 = .error .validationError ∧
    handle_add_savings ⟨[Entry.mk 1 600], 2, false, none⟩ 10 =
      .error .goalAlreadyReachedError ∧
    (∃ s' f, handle_add_savings initState 50 = .ok (s', f) ∧
      s'.savings = initState.savings ++ [Entry.mk initState.nextId 50] ∧
      s'.lastActionId = some initState.nextId ∧
      get_total_savings s' = get_total_savings initState + 50) :=
  ⟨((add_savings_spec initState 0).1 (by norm_num)).1,
   ((add_savings_spec _ 10).2.1 (by norm_num) (by decide)).1,
   (add_savings_spec initState 50).2.2 (by norm_num) (by decide)⟩

/-- C5: `handle_undo` fails with `nothingToUndoError` exactly when no
last-action id is tracked; with a tracked id it deletes that row and clears
the tracked id; and, in an invariant-satisfying state, an undo immediately
after a successful `handle_add_savings s 50` restores the ledger and the
total exactly, while a second undo fails with `nothingToUndoError`. -/
theorem undo_spec (s : AppState) :
    (s.lastActionId = none → handle_undo s = .error .nothingToUndoError) ∧
    (∀ i, s.lastActionId = some i →
      ∃ s' f, handle_undo s = .ok (s', f) ∧
        s'.savings = s.savings.filter (fun e => e.id ≠ i) ∧
        s'.lastActionId = none) ∧
    (Inv s → ∀ s1 f1, handle_add_savings s 50 = .ok (s1, f1) →
      ∃ s2 f2, handle_undo s1 = .ok (s2, f2) ∧
        s2.savings = s.savings ∧
        get_total_savings s2 = get_total_savings s ∧
        handle_undo s2 = .error .nothingToUndoError) := by
  refine ⟨handle_undo_none, fun i hi => ?_, fun hInv s1 f1 hr => ?_⟩
  · refine ⟨(refresh_ui ⟨s.savings.filter (fun e => e.id ≠ i), s.nextId,
        s.goalReached, none⟩).1,
      (refresh_ui ⟨s.savings.filter (fun e => e.id ≠ i), s.nextId,
        s.goalReached, none⟩).2, ?_, ?_, ?_⟩
    · rw [handle_undo_eq_ok hi]
    · rw [refresh_ui_fst_savings]
    · rw [refresh_ui_fst_lastActionId]
  · by_cases h2 : SAVINGS_GOAL ≤ get_total_savings s
    · rw [handle_add_savings, if_neg (by norm_num), if_pos h2] at hr
      cases hr
    · rw [handle_add_eq_ok (by norm_num) (by omega)] at hr
      injection hr with hr
      have h1 : s1 = (refresh_ui ⟨s.savings ++ [Entry.mk s.nextId 50],
          s.nextId + 1, s.goalReached, some s.nextId⟩).1 := by
        rw [hr]
      have hsav : s1.savings = s.savings ++ [Entry.mk s.nextId 50] := by
        rw [h1, refresh_ui_fst_savings]
      have hlast : s1.lastActionId = some s.nextId := by
        rw [h1, refresh_ui_fst_lastActionId]
      have hfilter : s1.savings.filter (fun e => e.id ≠ s.nextId) = s.savings := by
        rw [hsav]
        exact (filter_append_new s.savings s.nextId 50 hInv.2.1).2
      refine ⟨(refresh_ui ⟨s1.savings.filter (fun e => e.id ≠ s.nextId),
          s1.nextId, s1.goalReached, none⟩).1,
        (refresh_ui ⟨s1.savings.filter (fun e => e.id ≠ s.nextId),
          s1.nextId, s1.goalReached, none⟩).2, ?_, ?_, ?_, ?_⟩
      · rw [handle_undo_eq_ok hlast]
      · rw [refresh_ui_fst_savings]
        exact hfilter
      · rw [refresh_ui_total, get_total_savings_eq, get_total_savings_eq]
        exact congrArg totalList hfilter
      · apply handle_undo_none
        rw [refresh_ui_fst_lastActionId]

theorem undo_spec_witness :
    ∃ s2 f2, handle_undo ⟨[Entry.mk 1 50], 2, false, some 1⟩ = .ok (s2, f2) ∧
      s2.savings = initState.savings ∧
      get_total_savings s2 = get_total_savings initState ∧
      handle_undo s2 = .error .nothingToUndoError :=
  (undo_spec initState).2.2 Inv_init ⟨[Entry.mk 1 50], 2, false, some 1⟩ false rfl

/-- C6: the goal transition in `refresh_ui` signals exactly when the total
meets the goal and the flag is not yet set; a signalling step sets the flag;
a set flag silences every later run; along any run of user actions the
signal fires at most once; and the scenario add 500, subtract 100, add 100
from the empty store fires exactly once. -/
theorem goal_transition_fires_once :
    (∀ s : AppState, (refresh_ui s).2 = true ↔
      SAVINGS_GOAL ≤ get_total_savings s ∧ s.goalReached = false) ∧
    (∀ (s : AppState) (op : Op), (step s op).2 = true →
      (step s op).1.goalReached = true) ∧
    (∀ (s : AppState) (ops : List Op), s.goalReached = true →
      countFires s ops = 0) ∧
    (∀ (s : AppState) (ops : List Op), countFires s ops ≤ 1) ∧
    countFires initState [Op.add 500, Op.subtract 100, Op.add 100] = 1 :=
  ⟨refresh_ui_fired_iff, fun _ op => step_fired_flag op,
   countFires_zero_of_flag, countFires_le_one, by decide⟩

theorem goal_transition_fires_once_witness :
    countFires ⟨[], 1, true, none⟩ [Op.add 100] = 0 ∧
    (step initState (Op.add 500)).1.goalReached = true :=
  ⟨goal_transition_fires_once.2.2.1 ⟨[], 1, true, none⟩ [Op.add 100] rfl,
   goal_transition_fires_once.2.1 initState (Op.add 500) (by decide)⟩

/-- C10: `handle_reset_savings` does not clear the tracked last-action id,
so an undo after a reset does not fail with `nothingToUndoError`: it
deletes the already-deleted row (a no-op on the now-empty ledger), clears
the tracked id, and leaves the total at 0. -/
theorem reset_keeps_last_action (s : AppState) (i : Nat)
    (hi : s.lastActionId = some i) :
    (handle_reset_savings s).1.lastActionId = some i ∧
    (handle_reset_savings s).1.savings = [] ∧
    ∃ s2 f2, handle_undo (handle_reset_savings s).1 = .ok (s2, f2) ∧
      s2.savings = [] ∧ get_total_savings s2 = 0 ∧ s2.lastActionId = none := by
  rw [reset_state_eq]
  refine ⟨hi, rfl, ?_⟩
  have hu := handle_undo_eq_ok
    (s := ⟨[], s.nextId, s.goalReached, s.lastActionId⟩) (i := i) hi
  have hu2 : handle_undo (⟨[], s.nextId, s.goalReached, s.lastActionId⟩ : AppState) =
      .ok (⟨[], s.nextId, s.goalReached, none⟩, false) :=
    hu.trans (by exact congrArg Except.ok (refresh_ui_empty s.nextId s.goalReached none))
  refine ⟨⟨[], s.nextId, s.goalReached, none⟩, false, hu2, rfl, ?_, rfl⟩
  rw [get_total_savings_eq]
  rfl

theorem reset_keeps_last_action_witness :
    (handle_reset_savings ⟨[Entry.mk 1 50], 2, false, some 1⟩).1.lastActionId =
      some 1 ∧
    (handle_reset_savings ⟨[Entry.mk 1 50], 2, false, some 1⟩).1.savings = [] ∧
    ∃ s2 f2, handle_undo
        (handle_reset_savings ⟨[Entry.mk 1 50], 2, false, some 1⟩).1 =
        .ok (s2, f2) ∧
      s2.savings = [] ∧ get_total_savings s2 = 0 ∧ s2.lastActionId = none :=
  reset_keeps_last_action ⟨[Entry.mk 1 50], 2, false, some 1⟩ 1 rfl

end BloomGarden
